import Mathlib

/-!
Verification of the football-league backend (`src/main.py`, `src/schemas.py`).

The development shallowly embeds the handlers that carry logic:

* the standings engine `get_standings` (accumulation over played matches,
  goal-difference computation, sort with tie-breakers, position assignment);
* the fixture importer `upload_fixtures`;
* the roster enforcer `enforce_teams`;
* the partial match update `update_match`.

Documents from the Mongo store are modelled as Lean structures following
`schemas.py`; optional fields become `Option`.  A Python `KeyError`
(dictionary lookup of an absent key) is modelled by returning `none`.
-/

namespace Football

/-- A team document as used by `get_standings`: `str(t["_id"])` and `t["name"]`. -/
structure Team where
  id : String
  name : String
deriving DecidableEq, Repr

/-- A match document, fields per `schemas.Match`.  Scores are optional
(`Optional[int]`, non-negative), hence `Option Nat`. -/
structure GameMatch where
  homeTeamId : String
  awayTeamId : String
  homeScore : Option Nat
  awayScore : Option Nat
  status : String
deriving DecidableEq, Repr

/-- One standings row, fields per `schemas.StandingRow`.  `position` is
absent until assigned at the end of the computation. -/
@[ext]
structure Row where
  team_id : String
  team_name : String
  P : Nat
  W : Nat
  D : Nat
  L : Nat
  F : Nat
  A : Nat
  GD : Int
  Pts : Nat
  position : Option Nat
deriving DecidableEq, Repr

/-- The source line `hs = int(m.get("home_score", 0) or 0)`: a missing (or null) home score
is coerced to 0. -/
def hs (m : GameMatch) : Nat := m.homeScore.getD 0

/-- The source line `as_ = int(m.get("away_score", 0) or 0)`: a missing (or null) away score
is coerced to 0. -/
def as_ (m : GameMatch) : Nat := m.awayScore.getD 0

/-- The zeroed accumulator row built for each team
(`{"team_id": ..., "team_name": ..., "P": 0, ...}`). -/
def initRow (t : Team) : Row :=
  { team_id := t.id, team_name := t.name
    P := 0, W := 0, D := 0, L := 0, F := 0, A := 0, GD := 0, Pts := 0
    position := none }

/-- The accumulator table, one row per team (the Python dict keyed by
`str(t["_id"])`, modelled positionally). -/
def initTable (teams : List Team) : List Row := teams.map initRow

/-- The updates `get_standings` applies to the home team's row
(`table[h]`): `P += 1`, `F += hs`, `A += as_`, and the outcome branch. -/
def updHome (m : GameMatch) (r : Row) : Row :=
  if r.team_id = m.homeTeamId then
    { r with
      P := r.P + 1
      F := r.F + hs m
      A := r.A + as_ m
      W := r.W + (if hs m > as_ m then 1 else 0)
      L := r.L + (if hs m < as_ m then 1 else 0)
      D := r.D + (if hs m = as_ m then 1 else 0)
      Pts := r.Pts + (if hs m > as_ m then 3 else if hs m = as_ m then 1 else 0) }
  else r

/-- The updates `get_standings` applies to the away team's row
(`table[a]`): `P += 1`, `F += as_`, `A += hs`, and the outcome branch. -/
def updAway (m : GameMatch) (r : Row) : Row :=
  if r.team_id = m.awayTeamId then
    { r with
      P := r.P + 1
      F := r.F + as_ m
      A := r.A + hs m
      W := r.W + (if hs m < as_ m then 1 else 0)
      L := r.L + (if hs m > as_ m then 1 else 0)
      D := r.D + (if hs m = as_ m then 1 else 0)
      Pts := r.Pts + (if hs m < as_ m then 3 else if hs m = as_ m then 1 else 0) }
  else r

/-- Both sides' updates for one played match. -/
def updRow (m : GameMatch) (r : Row) : Row := updAway m (updHome m r)

/-- Folding one played match into the table.  The Python loop accesses
`table[h]` and `table[a]` unconditionally; if either key is absent the
request dies with a `KeyError`, modelled as `none`. -/
def applyMatch (table : List Row) (m : GameMatch) : Option (List Row) :=
  if (table.any fun r => r.team_id == m.homeTeamId) &&
     (table.any fun r => r.team_id == m.awayTeamId) then
    some (table.map (updRow m))
  else
    none

/-- The accumulation loop over the played matches. -/
def foldMatches (table : List Row) : List GameMatch → Option (List Row)
  | [] => some table
  | m :: ms =>
    match applyMatch table m with
    | some t => foldMatches t ms
    | none => none

/-- The sort order of `rows.sort(key=lambda r: (-r["Pts"], -r["GD"], -r["F"],
r["team_name"]))`: descending points, then descending goal difference, then
descending goals for, then ascending team name. -/
def rowle (r s : Row) : Prop :=
  s.Pts < r.Pts ∨ (r.Pts = s.Pts ∧
    (s.GD < r.GD ∨ (r.GD = s.GD ∧
      (s.F < r.F ∨ (r.F = s.F ∧ r.team_name ≤ s.team_name)))))

instance : DecidableRel rowle := fun r s => by
  unfold rowle; infer_instance

instance : IsTotal Row rowle := by
  constructor
  intro r s
  unfold rowle
  rcases Nat.lt_trichotomy r.Pts s.Pts with h | h | h
  · exact Or.inr (Or.inl h)
  · rcases lt_trichotomy r.GD s.GD with h2 | h2 | h2
    · exact Or.inr (Or.inr ⟨h.symm, Or.inl h2⟩)
    · rcases Nat.lt_trichotomy r.F s.F with h3 | h3 | h3
      · exact Or.inr (Or.inr ⟨h.symm, Or.inr ⟨h2.symm, Or.inl h3⟩⟩)
      · rcases le_total r.team_name s.team_name with h4 | h4
        · exact Or.inl (Or.inr ⟨h, Or.inr ⟨h2, Or.inr ⟨h3, h4⟩⟩⟩)
        · exact Or.inr (Or.inr ⟨h.symm, Or.inr ⟨h2.symm, Or.inr ⟨h3.symm, h4⟩⟩⟩)
      · exact Or.inl (Or.inr ⟨h, Or.inr ⟨h2, Or.inl h3⟩⟩)
    · exact Or.inl (Or.inr ⟨h, Or.inl h2⟩)
  · exact Or.inl (Or.inl h)

instance : IsTrans Row rowle := by
  constructor
  intro a b c hab hbc
  unfold rowle at *
  rcases hab with h1 | ⟨e1, h1⟩
  · rcases hbc with h2 | ⟨e2, h2⟩
    · exact Or.inl (h2.trans h1)
    · exact Or.inl (e2.symm.trans_lt h1)
  · rcases hbc with h2 | ⟨e2, h2⟩
    · exact Or.inl (h2.trans_eq e1.symm)
    · refine Or.inr ⟨e1.trans e2, ?_⟩
      rcases h1 with h1 | ⟨f1, h1⟩
      · rcases h2 with h2 | ⟨f2, h2⟩
        · exact Or.inl (h2.trans h1)
        · exact Or.inl (f2.symm.trans_lt h1)
      · rcases h2 with h2 | ⟨f2, h2⟩
        · exact Or.inl (h2.trans_eq f1.symm)
        · refine Or.inr ⟨f1.trans f2, ?_⟩
          rcases h1 with h1 | ⟨g1, h1⟩
          · rcases h2 with h2 | ⟨g2, h2⟩
            · exact Or.inl (h2.trans h1)
            · exact Or.inl (g2.symm.trans_lt h1)
          · rcases h2 with h2 | ⟨g2, h2⟩
            · exact Or.inl (h2.trans_eq g1.symm)
            · exact Or.inr ⟨g1.trans g2, h1.trans h2⟩

/-- The loop `for i, r in enumerate(rows, start=1): r["position"] = i`. -/
def assignPositions : Nat → List Row → List Row
  | _, [] => []
  | i, r :: rs => { r with position := some i } :: assignPositions (i + 1) rs

/-- The pass `row["GD"] = row["F"] - row["A"]` over the whole table. -/
def setGD (table : List Row) : List Row :=
  table.map fun r => { r with GD := (r.F : Int) - (r.A : Int) }

/-- The standings computation of `GET /api/leagues/{league_id}/standings`:
initialise one zero row per team (empty league short-circuits to `[]`),
fold every match with `status == "played"`, compute GD, sort with the
tie-breakers, and assign 1-based positions.  `none` models the `KeyError`
crash on a match whose team id is not a key of the table. -/
def get_standings (teams : List Team) (ms : List GameMatch) :
    Option (List Row) :=
  if teams.isEmpty then some []
  else
    match foldMatches (initTable teams) (ms.filter fun m => m.status == "played") with
    | none => none
    | some table =>
      some (assignPositions 1 (List.insertionSort rowle (setGD table)))

example :
    get_standings [⟨"idA", "A"⟩, ⟨"idB", "B"⟩]
      [⟨"idA", "idB", some 3, some 1, "played"⟩] =
    some [⟨"idA", "A", 1, 1, 0, 0, 3, 1, 2, 3, some 1⟩,
          ⟨"idB", "B", 1, 0, 0, 1, 1, 3, -2, 0, some 2⟩] := by
  decide

example :
    get_standings [⟨"idA", "A"⟩] [⟨"idX", "idA", some 0, some 0, "played"⟩] =
    none := by
  decide

/-! ### Fixture importer (`upload_fixtures`) -/

/-- One CSV data row as handed over by `csv.DictReader`:
`row.get("home_team", "")` and `row.get("away_team", "")` yield strings
(empty when the column is missing), `row.get("match_date")` and
`row.get("venue")` yield `None` when the column is missing. -/
structure FixtureRow where
  home_team : String
  away_team : String
  match_date : Option String
  venue : Option String
deriving DecidableEq, Repr

/-- A `match` document as written by the importer. -/
structure CreatedMatch where
  league_id : String
  home_team_id : String
  away_team_id : String
  match_date : Option String
  venue : Option String
  status : String
deriving DecidableEq, Repr

/-- The expression `row.get(k) or None`: a missing value stays absent and the empty string
is coerced to absent. -/
def orNone (v : Option String) : Option String :=
  match v with
  | none => none
  | some s => if s = "" then none else some s

/-- Python's `s.strip().lower()`, modelled on the character list: drop
leading and trailing whitespace, then lowercase every character. -/
def pyNorm (s : String) : String :=
  ⟨(((s.data.dropWhile Char.isWhitespace).reverse.dropWhile
      Char.isWhitespace).reverse).map Char.toLower⟩

/-- The team-name map `{t["name"].strip().lower(): t["_id"] for t in ...}`:
a dict comprehension, so on duplicate normalised names the later team wins. -/
def teamLookup (teams : List Team) (key : String) : Option String :=
  (teams.reverse.find? fun t => pyNorm t.name == key).map (·.id)

/-- One iteration of the import loop: resolve both names (trimmed,
lowercased); if either is unresolved skip the row (`continue`), otherwise
build the `match` document with status `"scheduled"`. -/
def processRow (teams : List Team) (league_id : String) (row : FixtureRow) :
    Option CreatedMatch :=
  match teamLookup teams (pyNorm row.home_team),
        teamLookup teams (pyNorm row.away_team) with
  | some h, some a =>
    some { league_id := league_id
           home_team_id := h
           away_team_id := a
           match_date := orNone row.match_date
           venue := orNone row.venue
           status := "scheduled" }
  | _, _ => none

/-- The import loop of `POST /api/leagues/{id}/fixtures/upload`: returns the
list of created `match` documents and the `inserted` counter. -/
def upload_fixtures (teams : List Team) (league_id : String)
    (rows : List FixtureRow) : List CreatedMatch × Nat :=
  rows.foldl
    (fun acc row =>
      match processRow teams league_id row with
      | some m => (acc.1 ++ [m], acc.2 + 1)
      | none => acc)
    ([], 0)

/-! ### Roster enforcer (`enforce_teams`) -/

/-- The fields of a `team` document the roster enforcer reads or writes
(the store-assigned `_id` is opaque to it). -/
structure RosterTeam where
  name : String
  short_name : Option String
deriving DecidableEq, Repr

/-- The constant `ALLOWED_CLUBS`, the canonical ten-club list. -/
def ALLOWED_CLUBS : List String :=
  ["HIBS", "BIRKIRKARA", "BALZAN", "ZABBAR", "NAXXAR",
   "QORMI", "MARSASKALA", "KIRKOP", "GOZO", "MELLIEHA"]

/-- The creation loop: for each allowed name, `find_one` by name and create
the team when absent, counting creations.  Newly created teams are visible
to later `find_one` calls, hence the accumulator is also the store state. -/
def ensureAllowed (state : List RosterTeam × Nat) (names : List String) :
    List RosterTeam × Nat :=
  match names with
  | [] => state
  | n :: rest =>
    if state.1.any fun t => t.name == n then ensureAllowed state rest
    else
      ensureAllowed (state.1 ++ [{ name := n, short_name := some n }], state.2 + 1) rest

/-- The handler of `POST /api/leagues/{id}/enforce-teams`: delete every team whose name is
not in the allowed set, then create every allowed name that is missing.
Returns the resulting team list, `deleted_non_allowed` and
`created_missing`. -/
def enforce_teams (teams : List RosterTeam) : List RosterTeam × Nat × Nat :=
  let toDelete := teams.filter fun t => ¬ t.name ∈ ALLOWED_CLUBS
  let remaining := teams.filter fun t => t.name ∈ ALLOWED_CLUBS
  let res := ensureAllowed (remaining, 0) ALLOWED_CLUBS
  (res.1, toDelete.length, res.2)

/-! ### Partial match update (`update_match`) -/

/-- A stored `match` document with all fields of `schemas.Match` plus the
timestamps the store and the update handler maintain (timestamps modelled
as naturals). -/
structure StoredMatch where
  league_id : String
  home_team_id : String
  away_team_id : String
  match_date : Option String
  venue : Option String
  status : String
  home_score : Option Nat
  away_score : Option Nat
  created_at : Nat
  updated_at : Option Nat
deriving DecidableEq, Repr

/-- The `MatchUpdate` request body: every field optional. -/
structure MatchUpdate where
  home_score : Option Nat
  away_score : Option Nat
  status : Option String
deriving DecidableEq, Repr

/-- The handler of `PATCH /api/matches/{id}`: drop the `None` fields of the payload; if any
remain, `$set` them together with `updated_at`; otherwise write nothing. -/
def update_match (m : StoredMatch) (p : MatchUpdate) (now : Nat) : StoredMatch :=
  if p.home_score = none ∧ p.away_score = none ∧ p.status = none then m
  else
    { m with
      home_score := match p.home_score with | some v => some v | none => m.home_score
      away_score := match p.away_score with | some v => some v | none => m.away_score
      status := match p.status with | some v => v | none => m.status
      updated_at := some now }

/-! ### Helper lemmas: the per-match row update -/

@[simp]
lemma updHome_team_id (m : GameMatch) (r : Row) :
    (updHome m r).team_id = r.team_id := by
  unfold updHome; split_ifs <;> rfl

@[simp]
lemma updAway_team_id (m : GameMatch) (r : Row) :
    (updAway m r).team_id = r.team_id := by
  unfold updAway; split_ifs <;> rfl

@[simp]
lemma updRow_team_id (m : GameMatch) (r : Row) :
    (updRow m r).team_id = r.team_id := by
  unfold updRow; simp

@[simp]
lemma updRow_team_name (m : GameMatch) (r : Row) :
    (updRow m r).team_name = r.team_name := by
  unfold updRow updAway updHome; split_ifs <;> rfl

@[simp]
lemma updRow_GD (m : GameMatch) (r : Row) :
    (updRow m r).GD = r.GD := by
  unfold updRow updAway updHome; split_ifs <;> rfl

@[simp]
lemma updRow_position (m : GameMatch) (r : Row) :
    (updRow m r).position = r.position := by
  unfold updRow updAway updHome; split_ifs <;> rfl

lemma updRow_P (m : GameMatch) (r : Row) :
    (updRow m r).P = r.P + (if r.team_id = m.homeTeamId then 1 else 0)
      + (if r.team_id = m.awayTeamId then 1 else 0) := by
  unfold updRow updAway updHome; split_ifs <;> simp

lemma updRow_F (m : GameMatch) (r : Row) :
    (updRow m r).F = r.F + (if r.team_id = m.homeTeamId then hs m else 0)
      + (if r.team_id = m.awayTeamId then as_ m else 0) := by
  unfold updRow updAway updHome; split_ifs <;> simp

lemma updRow_A (m : GameMatch) (r : Row) :
    (updRow m r).A = r.A + (if r.team_id = m.homeTeamId then as_ m else 0)
      + (if r.team_id = m.awayTeamId then hs m else 0) := by
  unfold updRow updAway updHome; split_ifs <;> simp

lemma updRow_W (m : GameMatch) (r : Row) :
    (updRow m r).W
      = r.W + (if r.team_id = m.homeTeamId then (if hs m > as_ m then 1 else 0) else 0)
      + (if r.team_id = m.awayTeamId then (if hs m < as_ m then 1 else 0) else 0) := by
  unfold updRow updAway updHome; split_ifs <;> simp

lemma updRow_L (m : GameMatch) (r : Row) :
    (updRow m r).L
      = r.L + (if r.team_id = m.homeTeamId then (if hs m < as_ m then 1 else 0) else 0)
      + (if r.team_id = m.awayTeamId then (if hs m > as_ m then 1 else 0) else 0) := by
  unfold updRow updAway updHome; split_ifs <;> simp

lemma updRow_D (m : GameMatch) (r : Row) :
    (updRow m r).D
      = r.D + (if r.team_id = m.homeTeamId then (if hs m = as_ m then 1 else 0) else 0)
      + (if r.team_id = m.awayTeamId then (if hs m = as_ m then 1 else 0) else 0) := by
  unfold updRow updAway updHome; split_ifs <;> simp

lemma updRow_Pts (m : GameMatch) (r : Row) :
    (updRow m r).Pts
      = r.Pts
      + (if r.team_id = m.homeTeamId then
          (if hs m > as_ m then 3 else if hs m = as_ m then 1 else 0) else 0)
      + (if r.team_id = m.awayTeamId then
          (if hs m < as_ m then 3 else if hs m = as_ m then 1 else 0) else 0) := by
  unfold updRow updAway updHome; split_ifs <;> simp

/-- Two per-match updates commute on a row (accumulation is additive). -/
lemma updRow_comm (m₁ m₂ : GameMatch) (r : Row) :
    updRow m₁ (updRow m₂ r) = updRow m₂ (updRow m₁ r) := by
  ext
  · simp
  · simp
  · rw [updRow_P, updRow_P, updRow_P, updRow_P, updRow_team_id, updRow_team_id]
    split_ifs <;> omega
  · rw [updRow_W, updRow_W, updRow_W, updRow_W, updRow_team_id, updRow_team_id]
    split_ifs <;> omega
  · rw [updRow_D, updRow_D, updRow_D, updRow_D, updRow_team_id, updRow_team_id]
    split_ifs <;> omega
  · rw [updRow_L, updRow_L, updRow_L, updRow_L, updRow_team_id, updRow_team_id]
    split_ifs <;> omega
  · rw [updRow_F, updRow_F, updRow_F, updRow_F, updRow_team_id, updRow_team_id]
    split_ifs <;> omega
  · rw [updRow_A, updRow_A, updRow_A, updRow_A, updRow_team_id, updRow_team_id]
    split_ifs <;> omega
  · simp
  · rw [updRow_Pts, updRow_Pts, updRow_Pts, updRow_Pts, updRow_team_id, updRow_team_id]
    split_ifs <;> omega
  · simp

/-! ### Helper lemmas: position assignment and the GD pass -/

lemma assignPositions_length (i : Nat) (l : List Row) :
    (assignPositions i l).length = l.length := by
  induction l generalizing i with
  | nil => rfl
  | cons r rs ih => simp [assignPositions, ih]

lemma assignPositions_mem {l : List Row} {i : Nat} {r : Row}
    (h : r ∈ assignPositions i l) :
    ∃ r' ∈ l, ∃ j, r = { r' with position := some j } := by
  induction l generalizing i with
  | nil => simp [assignPositions] at h
  | cons x xs ih =>
    simp only [assignPositions, List.mem_cons] at h
    rcases h with h | h
    · exact ⟨x, List.mem_cons_self x xs, i, h⟩
    · obtain ⟨r', hr', j, hj⟩ := ih h
      exact ⟨r', List.mem_cons_of_mem x hr', j, hj⟩

lemma assignPositions_get (l : List Row) (i k : Nat)
    (h : k < (assignPositions i l).length) :
    ((assignPositions i l).get ⟨k, h⟩).position = some (i + k) := by
  induction l generalizing i k with
  | nil => simp [assignPositions] at h
  | cons x xs ih =>
    cases k with
    | zero => simp [assignPositions]
    | succ k' =>
      have h' : k' < (assignPositions (i + 1) xs).length := by
        rw [assignPositions_length] at h ⊢
        simp only [List.length_cons] at h
        omega
      have h2 : (assignPositions i (x :: xs)).get ⟨k' + 1, h⟩
          = (assignPositions (i + 1) xs).get ⟨k', h'⟩ := by
        simp [assignPositions]
      rw [h2, ih (i + 1) k' h']
      congr 1
      omega

/-- The sort keys ignore the `position` field. -/
lemma rowle_set_position (r s : Row) (p q : Option Nat) :
    rowle { r with position := p } { s with position := q } ↔ rowle r s :=
  Iff.rfl

lemma assignPositions_pairwise {l : List Row} (h : l.Pairwise rowle) (i : Nat) :
    (assignPositions i l).Pairwise rowle := by
  induction l generalizing i with
  | nil => exact List.Pairwise.nil
  | cons x xs ih =>
    cases h with
    | cons hx hxs =>
      refine List.Pairwise.cons ?_ (ih hxs (i + 1))
      intro s hsmem
      obtain ⟨s', hs', j, rfl⟩ := assignPositions_mem hsmem
      exact (rowle_set_position x s' (some i) (some j)).mpr (hx s' hs')

lemma setGD_mem {t : List Row} {r : Row} (h : r ∈ setGD t) :
    ∃ r' ∈ t, r = { r' with GD := (r'.F : Int) - (r'.A : Int) } := by
  simp only [setGD, List.mem_map] at h
  obtain ⟨r', hr', rfl⟩ := h
  exact ⟨r', hr', rfl⟩

/-! ### C1 -/

/-- C1: for a league with at least one team, the rows returned by the
standings computation are sorted by descending `Pts`, then descending `GD`,
then descending `F`, then ascending `team_name` (the order `rowle`), and
each row's `position` is its 1-based index in that order, so even rows tied
on all four keys get distinct consecutive positions. -/
theorem standings_sorted_and_positioned
    (teams : List Team) (ms : List GameMatch) (rows : List Row)
    (hne : teams ≠ [])
    (h : get_standings teams ms = some rows) :
    List.Sorted rowle rows ∧
      ∀ k : Fin rows.length, (rows.get k).position = some (k.val + 1) := by
  unfold get_standings at h
  rw [if_neg (by simpa using hne)] at h
  set played := ms.filter fun m => m.status == "played" with hplayed
  cases hfold : foldMatches (initTable teams) played with
  | none => rw [hfold] at h; exact absurd h (by simp)
  | some table =>
    rw [hfold] at h
    have hrows : rows = assignPositions 1 (List.insertionSort rowle (setGD table)) := by
      injection h with h'
      exact h'.symm
    subst hrows
    constructor
    · exact assignPositions_pairwise (List.sorted_insertionSort rowle (setGD table)) 1
    · intro k
      have := assignPositions_get (List.insertionSort rowle (setGD table)) 1 k.val k.isLt
      rw [this]
      simp [Nat.add_comm]

/-- Witness for C1 at a concrete league: two teams, one played match. -/
theorem standings_sorted_and_positioned_witness :
    ([(⟨"idA", "A"⟩ : Team), ⟨"idB", "B"⟩] ≠ []) ∧
      (List.Sorted rowle
          [⟨"idA", "A", 1, 1, 0, 0, 3, 1, 2, 3, some 1⟩,
           ⟨"idB", "B", 1, 0, 0, 1, 1, 3, -2, 0, some 2⟩] ∧
        ∀ k : Fin ([(⟨"idA", "A", 1, 1, 0, 0, 3, 1, 2, 3, some 1⟩ : Row),
            ⟨"idB", "B", 1, 0, 0, 1, 1, 3, -2, 0, some 2⟩].length),
          (([(⟨"idA", "A", 1, 1, 0, 0, 3, 1, 2, 3, some 1⟩ : Row),
            ⟨"idB", "B", 1, 0, 0, 1, 1, 3, -2, 0, some 2⟩]).get k).position
            = some (k.val + 1)) :=
  ⟨by decide,
    standings_sorted_and_positioned
      [⟨"idA", "A"⟩, ⟨"idB", "B"⟩]
      [⟨"idA", "idB", some 3, some 1, "played"⟩]
      [⟨"idA", "A", 1, 1, 0, 0, 3, 1, 2, 3, some 1⟩,
       ⟨"idB", "B", 1, 0, 0, 1, 1, 3, -2, 0, some 2⟩]
      (by decide) (by decide)⟩

/-! ### C5: per-row invariants -/

/-- The per-row bookkeeping invariant. -/
def rowInv (r : Row) : Prop :=
  r.P = r.W + r.D + r.L ∧ r.Pts = 3 * r.W + r.D

lemma rowInv_updRow (m : GameMatch) (r : Row) (h : rowInv r) :
    rowInv (updRow m r) := by
  unfold rowInv at *
  rw [updRow_P, updRow_W, updRow_D, updRow_L, updRow_Pts]
  split_ifs <;> omega

lemma applyMatch_eq_some {t t1 : List Row} {m : GameMatch}
    (h : applyMatch t m = some t1) :
    t1 = t.map (updRow m) ∧
      (t.any fun r => r.team_id == m.homeTeamId) = true ∧
      (t.any fun r => r.team_id == m.awayTeamId) = true := by
  unfold applyMatch at h
  split_ifs at h with hc
  rw [Bool.and_eq_true] at hc
  simp only [Option.some.injEq] at h
  exact ⟨h.symm, hc.1, hc.2⟩

lemma foldMatches_inv {t t' : List Row} {ms : List GameMatch}
    (hfold : foldMatches t ms = some t')
    (hinv : ∀ r ∈ t, rowInv r) : ∀ r ∈ t', rowInv r := by
  induction ms generalizing t with
  | nil =>
    simp only [foldMatches, Option.some.injEq] at hfold
    exact hfold ▸ hinv
  | cons m ms ih =>
    unfold foldMatches at hfold
    split at hfold
    · rename_i t1 heq
      obtain ⟨ht1, _, _⟩ := applyMatch_eq_some heq
      subst ht1
      refine ih hfold ?_
      intro r hr
      obtain ⟨r', hr', rfl⟩ := List.mem_map.mp hr
      exact rowInv_updRow m r' (hinv r' hr')
    · exact absurd hfold (by simp)

/-- C5: every row of a computed standings table satisfies
`P = W + D + L` and `Pts = 3·W + D`. -/
theorem standings_row_invariants
    (teams : List Team) (ms : List GameMatch) (rows : List Row)
    (h : get_standings teams ms = some rows) :
    ∀ r ∈ rows, r.P = r.W + r.D + r.L ∧ r.Pts = 3 * r.W + r.D := by
  unfold get_standings at h
  split at h
  · intro r hr
    rw [← Option.some.injEq] at h
    simp only [Option.some.injEq] at h
    subst h
    simp at hr
  · revert h
    cases hfold : foldMatches (initTable teams)
        (ms.filter fun m => m.status == "played") with
    | none => intro h; exact absurd h (by simp)
    | some table =>
      intro h
      simp only [Option.some.injEq] at h
      subst h
      have htable : ∀ r ∈ table, rowInv r := by
        refine foldMatches_inv hfold ?_
        intro r hr
        obtain ⟨t, _, rfl⟩ := List.mem_map.mp hr
        exact ⟨rfl, rfl⟩
      intro r hr
      obtain ⟨r₁, hr₁, j, rfl⟩ := assignPositions_mem hr
      have hr₂ : r₁ ∈ setGD table :=
        ((List.perm_insertionSort rowle (setGD table)).mem_iff).mp hr₁
      obtain ⟨r₂, hr₂', rfl⟩ := setGD_mem hr₂
      exact htable r₂ hr₂'

/-- Witness for C5: the winner's row of the two-team, one-match league. -/
theorem standings_row_invariants_witness :
    (⟨"idA", "A", 1, 1, 0, 0, 3, 1, 2, 3, some 1⟩ : Row).P
        = (⟨"idA", "A", 1, 1, 0, 0, 3, 1, 2, 3, some 1⟩ : Row).W
          + (⟨"idA", "A", 1, 1, 0, 0, 3, 1, 2, 3, some 1⟩ : Row).D
          + (⟨"idA", "A", 1, 1, 0, 0, 3, 1, 2, 3, some 1⟩ : Row).L ∧
      (⟨"idA", "A", 1, 1, 0, 0, 3, 1, 2, 3, some 1⟩ : Row).Pts
        = 3 * (⟨"idA", "A", 1, 1, 0, 0, 3, 1, 2, 3, some 1⟩ : Row).W
          + (⟨"idA", "A", 1, 1, 0, 0, 3, 1, 2, 3, some 1⟩ : Row).D :=
  standings_row_invariants
    [⟨"idA", "A"⟩, ⟨"idB", "B"⟩]
    [⟨"idA", "idB", some 3, some 1, "played"⟩]
    [⟨"idA", "A", 1, 1, 0, 0, 3, 1, 2, 3, some 1⟩,
     ⟨"idB", "B", 1, 0, 0, 1, 1, 3, -2, 0, some 2⟩]
    (by decide)
    ⟨"idA", "A", 1, 1, 0, 0, 3, 1, 2, 3, some 1⟩
    (by decide)

/-! ### C2: per-match accumulation -/

/-- C2: folding one played match updates both sides' rows as specified —
`P` up by one on each side, `F`/`A` gain the scored/conceded goals, and the
win/draw/loss branch awards `W`/`L`/`D` and 3/0/1 points; the concrete
3–1 scenario produces exactly the specified rows. -/
theorem match_accumulation
    (m : GameMatch) (r s : Row)
    (hrh : r.team_id = m.homeTeamId) (hra : r.team_id ≠ m.awayTeamId)
    (hsa : s.team_id = m.awayTeamId) (hsh : s.team_id ≠ m.homeTeamId) :
    ((updRow m r).P = r.P + 1 ∧ (updRow m r).F = r.F + hs m ∧
        (updRow m r).A = r.A + as_ m ∧
      (hs m > as_ m → (updRow m r).W = r.W + 1 ∧ (updRow m r).L = r.L ∧
        (updRow m r).D = r.D ∧ (updRow m r).Pts = r.Pts + 3) ∧
      (hs m < as_ m → (updRow m r).L = r.L + 1 ∧ (updRow m r).W = r.W ∧
        (updRow m r).D = r.D ∧ (updRow m r).Pts = r.Pts) ∧
      (hs m = as_ m → (updRow m r).D = r.D + 1 ∧ (updRow m r).W = r.W ∧
        (updRow m r).L = r.L ∧ (updRow m r).Pts = r.Pts + 1)) ∧
    ((updRow m s).P = s.P + 1 ∧ (updRow m s).F = s.F + as_ m ∧
        (updRow m s).A = s.A + hs m ∧
      (hs m < as_ m → (updRow m s).W = s.W + 1 ∧ (updRow m s).L = s.L ∧
        (updRow m s).D = s.D ∧ (updRow m s).Pts = s.Pts + 3) ∧
      (hs m > as_ m → (updRow m s).L = s.L + 1 ∧ (updRow m s).W = s.W ∧
        (updRow m s).D = s.D ∧ (updRow m s).Pts = s.Pts) ∧
      (hs m = as_ m → (updRow m s).D = s.D + 1 ∧ (updRow m s).W = s.W ∧
        (updRow m s).L = s.L ∧ (updRow m s).Pts = s.Pts + 1)) ∧
    get_standings [⟨"idA", "A"⟩, ⟨"idB", "B"⟩]
        [⟨"idA", "idB", some 3, some 1, "played"⟩] =
      some [⟨"idA", "A", 1, 1, 0, 0, 3, 1, 2, 3, some 1⟩,
            ⟨"idB", "B", 1, 0, 0, 1, 1, 3, -2, 0, some 2⟩] := by
  refine ⟨?_, ?_, by decide⟩
  · simp only [updRow_P, updRow_F, updRow_A, updRow_W, updRow_L, updRow_D,
      updRow_Pts, if_pos hrh, if_neg hra]
    refine ⟨?_, ?_, ?_, ?_, ?_, ?_⟩
    all_goals first | trivial | omega | (intro hcmp; split_ifs <;> omega)
  · simp only [updRow_P, updRow_F, updRow_A, updRow_W, updRow_L, updRow_D,
      updRow_Pts, if_pos hsa, if_neg hsh]
    refine ⟨?_, ?_, ?_, ?_, ?_, ?_⟩
    all_goals first | trivial | omega | (intro hcmp; split_ifs <;> omega)

/-- Witness for C2: the 3–1 match applied to the two fresh rows. -/
theorem match_accumulation_witness :
    (updRow ⟨"idA", "idB", some 3, some 1, "played"⟩
        (initRow ⟨"idA", "A"⟩)).P = (initRow ⟨"idA", "A"⟩).P + 1 ∧
    (updRow ⟨"idA", "idB", some 3, some 1, "played"⟩
        (initRow ⟨"idB", "B"⟩)).P = (initRow ⟨"idB", "B"⟩).P + 1 :=
  ⟨((match_accumulation ⟨"idA", "idB", some 3, some 1, "played"⟩
      (initRow ⟨"idA", "A"⟩) (initRow ⟨"idB", "B"⟩)
      (by decide) (by decide) (by decide) (by decide)).1).1,
   ((match_accumulation ⟨"idA", "idB", some 3, some 1, "played"⟩
      (initRow ⟨"idA", "A"⟩) (initRow ⟨"idB", "B"⟩)
      (by decide) (by decide) (by decide) (by decide)).2.1).1⟩

/-! ### C4: missing scores are coerced to 0 -/

lemma updRow_congr (m m' : GameMatch)
    (h1 : m.homeTeamId = m'.homeTeamId) (h2 : m.awayTeamId = m'.awayTeamId)
    (h3 : hs m = hs m') (h4 : as_ m = as_ m') (r : Row) :
    updRow m r = updRow m' r := by
  unfold updRow updAway updHome
  rw [h1, h2, h3, h4]

/-- C4: an absent home or away score on a played match is read as 0; a
played match with both scores absent is folded exactly like an explicit
0–0 match (a draw), and such a match is still accumulated, not rejected
(the fold succeeds whenever both team ids are present). -/
theorem missing_scores_treated_as_zero (table : List Row) (m : GameMatch) :
    (m.homeScore = none → hs m = 0) ∧
    (m.awayScore = none → as_ m = 0) ∧
    (m.homeScore = none → m.awayScore = none →
      applyMatch table m =
        applyMatch table { m with homeScore := some 0, awayScore := some 0 }) ∧
    ((table.any fun r => r.team_id == m.homeTeamId) = true →
      (table.any fun r => r.team_id == m.awayTeamId) = true →
      (applyMatch table m).isSome = true) := by
  refine ⟨?_, ?_, ?_, ?_⟩
  · intro h; simp [hs, h]
  · intro h; simp [as_, h]
  · intro hh ha
    have hcongr : ∀ r : Row,
        updRow m r =
          updRow { m with homeScore := some 0, awayScore := some 0 } r := by
      intro r
      refine updRow_congr m
        { m with homeScore := some 0, awayScore := some 0 } rfl rfl ?_ ?_ r
      · simp [hs, hh]
      · simp [as_, ha]
    unfold applyMatch
    simp only []
    rw [List.map_congr_left fun r _ => hcongr r]
  · intro hh ha
    unfold applyMatch
    rw [hh, ha]
    simp

/-- Witness for C4: one team table, playeless scoreless match. -/
theorem missing_scores_treated_as_zero_witness :
    hs ⟨"idA", "idA", none, none, "played"⟩ = 0 ∧
    applyMatch [initRow ⟨"idA", "A"⟩] ⟨"idA", "idA", none, none, "played"⟩ =
      applyMatch [initRow ⟨"idA", "A"⟩]
        ⟨"idA", "idA", some 0, some 0, "played"⟩ :=
  ⟨(missing_scores_treated_as_zero [initRow ⟨"idA", "A"⟩]
      ⟨"idA", "idA", none, none, "played"⟩).1 rfl,
   (missing_scores_treated_as_zero [initRow ⟨"idA", "A"⟩]
      ⟨"idA", "idA", none, none, "played"⟩).2.2.1 rfl rfl⟩

/-! ### C3: a match referencing an unknown team id crashes the computation -/

/-- C3 (failing input): a played match whose home team id `"ghost"` is not a
team of the league makes the standings computation fail with a lookup error
(`KeyError`, modelled as `none`) instead of being skipped or reported. -/
theorem unknown_team_id_crashes_standings :
    get_standings [⟨"T1", "Alpha"⟩]
      [⟨"ghost", "T1", some 1, some 0, "played"⟩] = none := by
  decide

/-! ### C6: conservation totals -/

lemma ids_map_updRow (m : GameMatch) (t : List Row) :
    (t.map (updRow m)).map (·.team_id) = t.map (·.team_id) := by
  rw [List.map_map]
  exact List.map_congr_left fun r _ => updRow_team_id m r

lemma countP_id_eq_one {t : List Row} {x : String}
    (hnd : (t.map (·.team_id)).Nodup)
    (hmem : (t.any fun r => r.team_id == x) = true) :
    t.countP (fun r => r.team_id == x) = 1 := by
  have h1 : t.countP (fun r => r.team_id == x)
      = (t.map (·.team_id)).count x := by
    rw [List.count, List.countP_map]
    rfl
  have h2 : x ∈ t.map (·.team_id) := by
    rw [List.any_eq_true] at hmem
    obtain ⟨r, hr, hrx⟩ := hmem
    rw [beq_iff_eq] at hrx
    exact List.mem_map.mpr ⟨r, hr, hrx⟩
  rw [h1]
  exact List.count_eq_one_of_mem hnd h2

lemma sumP_map_updRow (m : GameMatch) (t : List Row) :
    ((t.map (updRow m)).map (·.P)).sum
      = (t.map (·.P)).sum
        + t.countP (fun r => r.team_id == m.homeTeamId)
        + t.countP (fun r => r.team_id == m.awayTeamId) := by
  induction t with
  | nil => rfl
  | cons x xs ih =>
    simp only [List.map_cons, List.sum_cons, List.countP_cons, beq_iff_eq]
    rw [updRow_P, ih]
    split_ifs <;> ring

lemma sumF_map_updRow (m : GameMatch) (t : List Row) :
    ((t.map (updRow m)).map (·.F)).sum
      = (t.map (·.F)).sum
        + t.countP (fun r => r.team_id == m.homeTeamId) * hs m
        + t.countP (fun r => r.team_id == m.awayTeamId) * as_ m := by
  induction t with
  | nil => simp
  | cons x xs ih =>
    simp only [List.map_cons, List.sum_cons, List.countP_cons, beq_iff_eq]
    rw [updRow_F, ih]
    split_ifs <;> ring

lemma sumA_map_updRow (m : GameMatch) (t : List Row) :
    ((t.map (updRow m)).map (·.A)).sum
      = (t.map (·.A)).sum
        + t.countP (fun r => r.team_id == m.homeTeamId) * as_ m
        + t.countP (fun r => r.team_id == m.awayTeamId) * hs m := by
  induction t with
  | nil => simp
  | cons x xs ih =>
    simp only [List.map_cons, List.sum_cons, List.countP_cons, beq_iff_eq]
    rw [updRow_A, ih]
    split_ifs <;> ring

lemma sumPts_map_updRow (m : GameMatch) (t : List Row) :
    ((t.map (updRow m)).map (·.Pts)).sum
      = (t.map (·.Pts)).sum
        + t.countP (fun r => r.team_id == m.homeTeamId)
            * (if hs m > as_ m then 3 else if hs m = as_ m then 1 else 0)
        + t.countP (fun r => r.team_id == m.awayTeamId)
            * (if hs m < as_ m then 3 else if hs m = as_ m then 1 else 0) := by
  induction t with
  | nil => simp
  | cons x xs ih =>
    simp only [List.map_cons, List.sum_cons, List.countP_cons, beq_iff_eq]
    rw [updRow_Pts, ih]
    split_ifs <;> ring

lemma foldMatches_sums {t t' : List Row} {ms : List GameMatch}
    (hnd : (t.map (·.team_id)).Nodup)
    (hfold : foldMatches t ms = some t') :
    ((t'.map (·.P)).sum = (t.map (·.P)).sum + 2 * ms.length) ∧
    ((t'.map (·.Pts)).sum
      = (t.map (·.Pts)).sum
        + (ms.map fun m => if hs m = as_ m then 2 else 3).sum) ∧
    ((t'.map (·.F)).sum
      = (t.map (·.F)).sum + (ms.map fun m => hs m + as_ m).sum) ∧
    ((t'.map (·.A)).sum
      = (t.map (·.A)).sum + (ms.map fun m => hs m + as_ m).sum) := by
  induction ms generalizing t with
  | nil =>
    simp only [foldMatches, Option.some.injEq] at hfold
    subst hfold
    simp
  | cons m ms ih =>
    unfold foldMatches at hfold
    split at hfold
    · rename_i t1 heq
      obtain ⟨ht1, hH, hA⟩ := applyMatch_eq_some heq
      subst ht1
      have hnd1 : ((t.map (updRow m)).map (·.team_id)).Nodup := by
        rw [ids_map_updRow]; exact hnd
      obtain ⟨s1, s2, s3, s4⟩ := ih hnd1 hfold
      have cH := countP_id_eq_one hnd hH
      have cA := countP_id_eq_one hnd hA
      refine ⟨?_, ?_, ?_, ?_⟩
      · rw [s1, sumP_map_updRow, cH, cA]
        simp only [List.length_cons]
        ring
      · rw [s2, sumPts_map_updRow, cH, cA]
        simp only [List.map_cons, List.sum_cons]
        split_ifs <;> omega
      · rw [s3, sumF_map_updRow, cH, cA]
        simp only [List.map_cons, List.sum_cons]
        ring
      · rw [s4, sumA_map_updRow, cH, cA]
        simp only [List.map_cons, List.sum_cons]
        ring
    · exact absurd hfold (by simp)

lemma setGD_map_field {α : Type} (f : Row → α)
    (hf : ∀ r : Row, f { r with GD := (r.F : Int) - (r.A : Int) } = f r)
    (l : List Row) : (setGD l).map f = l.map f := by
  unfold setGD
  rw [List.map_map]
  exact List.map_congr_left fun r _ => hf r

lemma assignPositions_map_field {α : Type} (f : Row → α)
    (hf : ∀ (r : Row) (j : Nat), f { r with position := some j } = f r) :
    ∀ (i : Nat) (l : List Row), (assignPositions i l).map f = l.map f := by
  intro i l
  induction l generalizing i with
  | nil => rfl
  | cons x xs ih =>
    simp only [assignPositions, List.map_cons, ih, hf]

lemma initTable_ids (teams : List Team) :
    (initTable teams).map (·.team_id) = teams.map (·.id) := by
  unfold initTable
  rw [List.map_map]
  rfl

/-- C6: over a league with distinct team ids, a successfully computed
standings table conserves totals: `ΣP` is twice the number of played
matches, `ΣPts` awards 3 per decisive and 2 per drawn played match, and
total goals for equal total goals against. -/
theorem standings_conservation
    (teams : List Team) (ms : List GameMatch) (rows : List Row)
    (hnd : (teams.map (·.id)).Nodup)
    (hvalid : ∀ m ∈ ms, m.status = "played" →
      m.homeTeamId ∈ teams.map (·.id) ∧ m.awayTeamId ∈ teams.map (·.id))
    (h : get_standings teams ms = some rows) :
    ((rows.map (·.P)).sum
        = 2 * (ms.filter fun m => m.status == "played").length) ∧
    ((rows.map (·.Pts)).sum
        = ((ms.filter fun m => m.status == "played").map
            fun m => if hs m = as_ m then 2 else 3).sum) ∧
    ((rows.map (·.F)).sum = (rows.map (·.A)).sum) := by
  unfold get_standings at h
  split at h
  · rename_i hempty
    have hteams : teams = [] := by simpa [List.isEmpty_iff] using hempty
    subst hteams
    have hplayed : (ms.filter fun m => m.status == "played") = [] := by
      rw [List.filter_eq_nil_iff]
      intro m hm hstat
      have := (hvalid m hm (by simpa using hstat)).1
      simp at this
    simp only [Option.some.injEq] at h
    subst h
    simp [hplayed]
  · revert h
    cases hfold : foldMatches (initTable teams)
        (ms.filter fun m => m.status == "played") with
    | none => intro h; exact absurd h (by simp)
    | some table =>
      intro h
      simp only [Option.some.injEq] at h
      subst h
      have hnd0 : ((initTable teams).map (·.team_id)).Nodup := by
        rw [initTable_ids]; exact hnd
      obtain ⟨s1, s2, s3, s4⟩ := foldMatches_sums hnd0 hfold
      have z : ∀ f : Row → Nat, (∀ t : Team, f (initRow t) = 0) →
          ((initTable teams).map f).sum = 0 := by
        intro f hf
        unfold initTable
        rw [List.map_map]
        have hz : (f ∘ initRow) = fun _ : Team => 0 := funext fun t => hf t
        rw [hz]
        simp
      have trans : ∀ f : Row → Nat,
          (∀ (r : Row) (j : Nat), f { r with position := some j } = f r) →
          (∀ r : Row, f { r with GD := (r.F : Int) - (r.A : Int) } = f r) →
          ((assignPositions 1
              (List.insertionSort rowle (setGD table))).map f).sum
            = (table.map f).sum := by
        intro f hpos hgd
        rw [assignPositions_map_field f hpos]
        rw [((List.perm_insertionSort rowle (setGD table)).map f).sum_eq]
        rw [setGD_map_field f hgd]
      have mP := trans (·.P) (fun r j => rfl) (fun r => rfl)
      have mPts := trans (·.Pts) (fun r j => rfl) (fun r => rfl)
      have mF := trans (·.F) (fun r j => rfl) (fun r => rfl)
      have mA := trans (·.A) (fun r j => rfl) (fun r => rfl)
      refine ⟨?_, ?_, ?_⟩
      · rw [mP, s1, z (·.P) (fun t => rfl)]
        omega
      · rw [mPts, s2, z (·.Pts) (fun t => rfl)]
        omega
      · rw [mF, mA, s3, s4, z (·.F) (fun t => rfl), z (·.A) (fun t => rfl)]

/-- Witness for C6: the two-team, one-match league. -/
theorem standings_conservation_witness :
    (([(⟨"idA", "A", 1, 1, 0, 0, 3, 1, 2, 3, some 1⟩ : Row),
        ⟨"idB", "B", 1, 0, 0, 1, 1, 3, -2, 0, some 2⟩].map (·.P)).sum
      = 2 * ([(⟨"idA", "idB", some 3, some 1, "played"⟩ : GameMatch)].filter
          fun m => m.status == "played").length) ∧
    (([(⟨"idA", "A", 1, 1, 0, 0, 3, 1, 2, 3, some 1⟩ : Row),
        ⟨"idB", "B", 1, 0, 0, 1, 1, 3, -2, 0, some 2⟩].map (·.Pts)).sum
      = (([(⟨"idA", "idB", some 3, some 1, "played"⟩ : GameMatch)].filter
            fun m => m.status == "played").map
          fun m => if hs m = as_ m then 2 else 3).sum) ∧
    (([(⟨"idA", "A", 1, 1, 0, 0, 3, 1, 2, 3, some 1⟩ : Row),
        ⟨"idB", "B", 1, 0, 0, 1, 1, 3, -2, 0, some 2⟩].map (·.F)).sum
      = ([(⟨"idA", "A", 1, 1, 0, 0, 3, 1, 2, 3, some 1⟩ : Row),
          ⟨"idB", "B", 1, 0, 0, 1, 1, 3, -2, 0, some 2⟩].map (·.A)).sum) :=
  standings_conservation
    [⟨"idA", "A"⟩, ⟨"idB", "B"⟩]
    [⟨"idA", "idB", some 3, some 1, "played"⟩]
    [⟨"idA", "A", 1, 1, 0, 0, 3, 1, 2, 3, some 1⟩,
     ⟨"idB", "B", 1, 0, 0, 1, 1, 3, -2, 0, some 2⟩]
    (by decide) (by decide) (by decide)

/-! ### C7: order invariance -/

lemma foldMatches_eq_foldl {t : List Row} {ms : List GameMatch}
    (hvalid : ∀ m ∈ ms, m.homeTeamId ∈ t.map (·.team_id) ∧
      m.awayTeamId ∈ t.map (·.team_id)) :
    foldMatches t ms = some (ms.foldl (fun u m => u.map (updRow m)) t) := by
  induction ms generalizing t with
  | nil => rfl
  | cons m ms ih =>
    have hm := hvalid m (List.mem_cons_self m ms)
    have hH : (t.any fun r => r.team_id == m.homeTeamId) = true := by
      rw [List.any_eq_true]
      obtain ⟨r, hr, hrx⟩ := List.mem_map.mp hm.1
      exact ⟨r, hr, by rw [beq_iff_eq]; exact hrx⟩
    have hA : (t.any fun r => r.team_id == m.awayTeamId) = true := by
      rw [List.any_eq_true]
      obtain ⟨r, hr, hrx⟩ := List.mem_map.mp hm.2
      exact ⟨r, hr, by rw [beq_iff_eq]; exact hrx⟩
    have happ : applyMatch t m = some (t.map (updRow m)) := by
      unfold applyMatch
      rw [hH, hA]
      simp
    unfold foldMatches
    rw [happ, List.foldl_cons]
    exact ih fun m' hm' => by
      rw [ids_map_updRow]
      exact hvalid m' (List.mem_cons_of_mem m hm')

lemma foldl_upd_perm {ms1 ms2 : List GameMatch} (h : ms1.Perm ms2)
    (t : List Row) :
    ms1.foldl (fun u m => u.map (updRow m)) t
      = ms2.foldl (fun u m => u.map (updRow m)) t := by
  refine h.foldl_eq' ?_ t
  intro x _ y _ z
  rw [List.map_map, List.map_map]
  refine List.map_congr_left fun r _ => ?_
  simp only [Function.comp_apply]
  exact updRow_comm y x r

/-- C7: over a league containing all the team ids referenced by the played
matches, the standings computation is invariant under permutation of the
match list — any two orderings of the same multiset of matches return the
identical row sequence with identical positions. -/
theorem standings_order_invariant
    (teams : List Team) (ms1 ms2 : List GameMatch)
    (hperm : ms1.Perm ms2)
    (hvalid : ∀ m ∈ ms1, m.status = "played" →
      m.homeTeamId ∈ teams.map (·.id) ∧ m.awayTeamId ∈ teams.map (·.id)) :
    get_standings teams ms1 = get_standings teams ms2 := by
  unfold get_standings
  by_cases he : teams.isEmpty
  · rw [if_pos he, if_pos he]
  · rw [if_neg he, if_neg he]
    have hpf : (ms1.filter fun m => m.status == "played").Perm
        (ms2.filter fun m => m.status == "played") := hperm.filter _
    have hv1 : ∀ m ∈ ms1.filter (fun m => m.status == "played"),
        m.homeTeamId ∈ (initTable teams).map (·.team_id) ∧
          m.awayTeamId ∈ (initTable teams).map (·.team_id) := by
      intro m hm
      rw [List.mem_filter] at hm
      rw [initTable_ids]
      exact hvalid m hm.1 (by simpa using hm.2)
    have hv2 : ∀ m ∈ ms2.filter (fun m => m.status == "played"),
        m.homeTeamId ∈ (initTable teams).map (·.team_id) ∧
          m.awayTeamId ∈ (initTable teams).map (·.team_id) := by
      intro m hm
      exact hv1 m (hpf.mem_iff.mpr hm)
    rw [foldMatches_eq_foldl hv1, foldMatches_eq_foldl hv2,
      foldl_upd_perm hpf]

/-- Witness for C7: the same two matches in both orders. -/
theorem standings_order_invariant_witness :
    get_standings [⟨"idA", "A"⟩, ⟨"idB", "B"⟩]
        [⟨"idA", "idB", some 3, some 1, "played"⟩,
         ⟨"idB", "idA", some 2, some 2, "played"⟩]
      = get_standings [⟨"idA", "A"⟩, ⟨"idB", "B"⟩]
        [⟨"idB", "idA", some 2, some 2, "played"⟩,
         ⟨"idA", "idB", some 3, some 1, "played"⟩] :=
  standings_order_invariant
    [⟨"idA", "A"⟩, ⟨"idB", "B"⟩]
    [⟨"idA", "idB", some 3, some 1, "played"⟩,
     ⟨"idB", "idA", some 2, some 2, "played"⟩]
    [⟨"idB", "idA", some 2, some 2, "played"⟩,
     ⟨"idA", "idB", some 3, some 1, "played"⟩]
    (List.Perm.swap _ _ _)
    (by decide)

/-! ### C8: roster enforcement idempotence -/

lemma ensureAllowed_mem {st : List RosterTeam × Nat} {names : List String}
    {t : RosterTeam} (h : t ∈ st.1) : t ∈ (ensureAllowed st names).1 := by
  induction names generalizing st with
  | nil => exact h
  | cons n rest ih =>
    unfold ensureAllowed
    split_ifs with hc
    · exact ih h
    · exact ih (List.mem_append_left _ h)

lemma ensureAllowed_covers {st : List RosterTeam × Nat} {names : List String} :
    ∀ n ∈ names, ∃ t ∈ (ensureAllowed st names).1, t.name = n := by
  induction names generalizing st with
  | nil => intro n hn; simp at hn
  | cons n0 rest ih =>
    intro n hn
    rcases List.mem_cons.mp hn with rfl | hn'
    · unfold ensureAllowed
      split_ifs with hc
      · rw [List.any_eq_true] at hc
        obtain ⟨t, ht, htn⟩ := hc
        rw [beq_iff_eq] at htn
        exact ⟨t, ensureAllowed_mem ht, htn⟩
      · refine ⟨⟨n, some n⟩, ensureAllowed_mem ?_, rfl⟩
        exact List.mem_append_right _ (by simp)
    · unfold ensureAllowed
      split_ifs with hc
      · exact ih n hn'
      · exact ih n hn'

lemma ensureAllowed_subset {st : List RosterTeam × Nat} {names : List String}
    {t : RosterTeam} (h : t ∈ (ensureAllowed st names).1) :
    t ∈ st.1 ∨ t.name ∈ names := by
  induction names generalizing st with
  | nil => exact Or.inl h
  | cons n rest ih =>
    unfold ensureAllowed at h
    split_ifs at h with hc
    · rcases ih h with h' | h'
      · exact Or.inl h'
      · exact Or.inr (List.mem_cons_of_mem _ h')
    · rcases ih h with h' | h'
      · rcases List.mem_append.mp h' with h'' | h''
        · exact Or.inl h''
        · have ht : t = ⟨n, some n⟩ := by simpa using h''
          subst ht
          exact Or.inr (List.mem_cons_self n rest)
      · exact Or.inr (List.mem_cons_of_mem _ h')

lemma ensureAllowed_noop {st : List RosterTeam × Nat} {names : List String}
    (h : ∀ n ∈ names, (st.1.any fun t => t.name == n) = true) :
    ensureAllowed st names = st := by
  induction names with
  | nil => rfl
  | cons n rest ih =>
    unfold ensureAllowed
    rw [if_pos (h n (List.mem_cons_self n rest))]
    exact ih fun n' hn' => h n' (List.mem_cons_of_mem _ hn')

/-- C8: the roster enforcer is idempotent — a second run right after a
first one deletes 0 teams, creates 0 teams and leaves the team list
untouched, and after the first run the set of team names is exactly the
canonical ten-club list. -/
theorem enforce_teams_idempotent (teams : List RosterTeam) :
    enforce_teams (enforce_teams teams).1 = ((enforce_teams teams).1, 0, 0) ∧
      ∀ n : String,
        (∃ t ∈ (enforce_teams teams).1, t.name = n) ↔ n ∈ ALLOWED_CLUBS := by
  have hfirst : (enforce_teams teams).1
      = (ensureAllowed
          ((teams.filter fun t => t.name ∈ ALLOWED_CLUBS), 0)
          ALLOWED_CLUBS).1 := rfl
  have hall : ∀ t ∈ (enforce_teams teams).1, t.name ∈ ALLOWED_CLUBS := by
    intro t ht
    rw [hfirst] at ht
    rcases ensureAllowed_subset ht with h' | h'
    · have := List.mem_filter.mp h'
      simpa using this.2
    · exact h'
  have hcover : ∀ n ∈ ALLOWED_CLUBS, ∃ t ∈ (enforce_teams teams).1,
      t.name = n := by
    intro n hn
    rw [hfirst]
    exact ensureAllowed_covers n hn
  have hdel : ((enforce_teams teams).1.filter
      fun t => ¬ t.name ∈ ALLOWED_CLUBS) = [] := by
    rw [List.filter_eq_nil_iff]
    intro t ht hmem
    rw [decide_eq_true_eq] at hmem
    exact hmem (hall t ht)
  have hrem : ((enforce_teams teams).1.filter
      fun t => t.name ∈ ALLOWED_CLUBS) = (enforce_teams teams).1 := by
    rw [List.filter_eq_self]
    intro t ht
    rw [decide_eq_true_eq]
    exact hall t ht
  have hnoop : ensureAllowed ((enforce_teams teams).1, 0) ALLOWED_CLUBS
      = ((enforce_teams teams).1, 0) := by
    apply ensureAllowed_noop
    intro n hn
    obtain ⟨t, ht, htn⟩ := hcover n hn
    rw [List.any_eq_true]
    exact ⟨t, ht, by rw [beq_iff_eq]; exact htn⟩
  constructor
  · show ((ensureAllowed
        (((enforce_teams teams).1.filter fun t => t.name ∈ ALLOWED_CLUBS), 0)
        ALLOWED_CLUBS).1,
      ((enforce_teams teams).1.filter
        fun t => ¬ t.name ∈ ALLOWED_CLUBS).length,
      (ensureAllowed
        (((enforce_teams teams).1.filter fun t => t.name ∈ ALLOWED_CLUBS), 0)
        ALLOWED_CLUBS).2) = ((enforce_teams teams).1, 0, 0)
    rw [hdel, hrem, hnoop]
    rfl
  · intro n
    constructor
    · rintro ⟨t, ht, rfl⟩
      exact hall t ht
    · exact hcover n

/-- Witness for C8 on the league of the spec's scenario 10. -/
theorem enforce_teams_idempotent_witness :
    enforce_teams
        (enforce_teams [⟨"HIBS", some "H"⟩, ⟨"UNKNOWN_CLUB", none⟩]).1
      = ((enforce_teams [⟨"HIBS", some "H"⟩, ⟨"UNKNOWN_CLUB", none⟩]).1,
          0, 0) ∧
    ∀ n : String,
      (∃ t ∈ (enforce_teams
          [⟨"HIBS", some "H"⟩, ⟨"UNKNOWN_CLUB", none⟩]).1, t.name = n)
        ↔ n ∈ ALLOWED_CLUBS :=
  enforce_teams_idempotent [⟨"HIBS", some "H"⟩, ⟨"UNKNOWN_CLUB", none⟩]

/-- Scenario 10 of the spec, checked against the model: enforcing the
roster on `{HIBS, UNKNOWN_CLUB}` deletes 1 team and creates 9. -/
example :
    (enforce_teams [⟨"HIBS", some "H"⟩, ⟨"UNKNOWN_CLUB", none⟩]).2.1 = 1 ∧
    (enforce_teams [⟨"HIBS", some "H"⟩, ⟨"UNKNOWN_CLUB", none⟩]).2.2 = 9 := by
  decide

/-! ### C9: fixture import -/

lemma upload_fixtures_foldl (teams : List Team) (league_id : String)
    (rows : List FixtureRow) (acc : List CreatedMatch) (k : Nat) :
    rows.foldl
        (fun acc row =>
          match processRow teams league_id row with
          | some m => (acc.1 ++ [m], acc.2 + 1)
          | none => acc)
        (acc, k)
      = (acc ++ rows.filterMap (processRow teams league_id),
         k + (rows.filterMap (processRow teams league_id)).length) := by
  induction rows generalizing acc k with
  | nil => simp
  | cons row rest ih =>
    cases hp : processRow teams league_id row with
    | none =>
      simp only [List.foldl_cons, List.filterMap_cons, hp]
      exact ih acc k
    | some m =>
      simp only [List.foldl_cons, List.filterMap_cons, hp]
      rw [ih]
      simp only [Prod.mk.injEq]
      exact ⟨by simp, by simp only [List.length_cons]; omega⟩

/-- C9: the fixture importer creates exactly one `"scheduled"` match per
row whose home and away names both resolve (trimmed, lowercased) to league
teams, silently skips every row with an unresolved name, and returns as
`inserted` the number of created matches. -/
theorem upload_fixtures_spec (teams : List Team) (league_id : String)
    (rows : List FixtureRow) :
    (upload_fixtures teams league_id rows).2
        = (upload_fixtures teams league_id rows).1.length ∧
    (upload_fixtures teams league_id rows).1
        = rows.filterMap (processRow teams league_id) ∧
    (∀ row ∈ rows,
      (teamLookup teams (pyNorm row.home_team) = none ∨
        teamLookup teams (pyNorm row.away_team) = none) →
      processRow teams league_id row = none) ∧
    (∀ (row : FixtureRow) (m : CreatedMatch),
      processRow teams league_id row = some m →
      m.status = "scheduled" ∧ m.league_id = league_id ∧
        teamLookup teams (pyNorm row.home_team) = some m.home_team_id ∧
        teamLookup teams (pyNorm row.away_team) = some m.away_team_id) := by
  have hfold := upload_fixtures_foldl teams league_id rows [] 0
  refine ⟨?_, ?_, ?_, ?_⟩
  · unfold upload_fixtures
    rw [hfold]
    simp
  · unfold upload_fixtures
    rw [hfold]
    simp
  · intro row _ h
    unfold processRow
    cases hh : teamLookup teams (pyNorm row.home_team) with
    | none =>
      cases ha : teamLookup teams (pyNorm row.away_team) <;> rfl
    | some x =>
      cases ha : teamLookup teams (pyNorm row.away_team) with
      | none => rfl
      | some y =>
        exfalso
        rcases h with h | h
        · rw [hh] at h; simp at h
        · rw [ha] at h; simp at h
  · intro row m hp
    unfold processRow at hp
    cases hh : teamLookup teams (pyNorm row.home_team) with
    | none =>
      rw [hh] at hp
      cases ha : teamLookup teams (pyNorm row.away_team) <;>
        simp at hp
    | some x =>
      rw [hh] at hp
      cases ha : teamLookup teams (pyNorm row.away_team) with
      | none => rw [ha] at hp; simp at hp
      | some y =>
        rw [ha] at hp
        simp only [Option.some.injEq] at hp
        subst hp
        exact ⟨rfl, rfl, rfl, rfl⟩

/-- Witness for C9: one resolvable row, one row with an unknown home team
name; the skipped row creates nothing and is not counted. -/
theorem upload_fixtures_spec_witness :
    processRow [⟨"t1", "Alpha"⟩] "L1" ⟨"Nobody", "Alpha", none, none⟩
        = none ∧
    (upload_fixtures [⟨"t1", "Alpha"⟩] "L1"
        [⟨"Nobody", "Alpha", none, none⟩]).2
      = (upload_fixtures [⟨"t1", "Alpha"⟩] "L1"
          [⟨"Nobody", "Alpha", none, none⟩]).1.length :=
  ⟨(upload_fixtures_spec [⟨"t1", "Alpha"⟩] "L1"
        [⟨"Nobody", "Alpha", none, none⟩]).2.2.1
      ⟨"Nobody", "Alpha", none, none⟩ (by decide) (Or.inl (by decide)),
   (upload_fixtures_spec [⟨"t1", "Alpha"⟩] "L1"
        [⟨"Nobody", "Alpha", none, none⟩]).1⟩

/-! ### C10: partial match update -/

/-- C10: the match update writes only the payload fields that are present —
an absent payload field leaves the stored field unchanged (so a stored
score can never be reset to absent), non-score/status fields are never
touched, `updated_at` is stamped exactly when some payload field is
present, and an all-`None` payload leaves the record entirely unchanged
(no write at all). -/
theorem update_match_frame (m : StoredMatch) (p : MatchUpdate) (now : Nat) :
    (p.home_score = none ∧ p.away_score = none ∧ p.status = none →
      update_match m p now = m) ∧
    (p.home_score = none →
      (update_match m p now).home_score = m.home_score) ∧
    (p.away_score = none →
      (update_match m p now).away_score = m.away_score) ∧
    (p.status = none → (update_match m p now).status = m.status) ∧
    (∀ v, p.home_score = some v →
      (update_match m p now).home_score = some v) ∧
    (∀ v, p.away_score = some v →
      (update_match m p now).away_score = some v) ∧
    (∀ s, p.status = some s → (update_match m p now).status = s) ∧
    ((update_match m p now).league_id = m.league_id ∧
      (update_match m p now).home_team_id = m.home_team_id ∧
      (update_match m p now).away_team_id = m.away_team_id ∧
      (update_match m p now).match_date = m.match_date ∧
      (update_match m p now).venue = m.venue ∧
      (update_match m p now).created_at = m.created_at) ∧
    (¬(p.home_score = none ∧ p.away_score = none ∧ p.status = none) →
      (update_match m p now).updated_at = some now) ∧
    ((update_match m p now).home_score = none → m.home_score = none) ∧
    ((update_match m p now).away_score = none → m.away_score = none) := by
  unfold update_match
  split_ifs with hall
  · obtain ⟨h1, h2, h3⟩ := hall
    refine ⟨fun _ => rfl, fun _ => rfl, fun _ => rfl, fun _ => rfl,
      ?_, ?_, ?_, ⟨rfl, rfl, rfl, rfl, rfl, rfl⟩, ?_, fun h => h, fun h => h⟩
    · intro v hv; rw [h1] at hv; cases hv
    · intro v hv; rw [h2] at hv; cases hv
    · intro s hv; rw [h3] at hv; cases hv
    · intro hn; exact absurd ⟨h1, h2, h3⟩ hn
  · refine ⟨fun h => absurd h hall, ?_, ?_, ?_, ?_, ?_, ?_,
      ⟨rfl, rfl, rfl, rfl, rfl, rfl⟩, fun _ => rfl, ?_, ?_⟩
    · intro h; rw [h]
    · intro h; rw [h]
    · intro h; rw [h]
    · intro v hv; rw [hv]
    · intro v hv; rw [hv]
    · intro s hv; rw [hv]
    · intro h
      cases hps : p.home_score with
      | none => rw [hps] at h; exact h
      | some v => rw [hps] at h; simp at h
    · intro h
      cases hps : p.away_score with
      | none => rw [hps] at h; exact h
      | some v => rw [hps] at h; simp at h

/-- Witness for C10: an all-`None` payload is a no-op; a partial payload
leaves the away score alone. -/
theorem update_match_frame_witness :
    update_match
        ⟨"L1", "t1", "t2", none, none, "scheduled", none, none, 7, none⟩
        ⟨none, none, none⟩ 99
      = ⟨"L1", "t1", "t2", none, none, "scheduled", none, none, 7, none⟩ ∧
    (update_match
        ⟨"L1", "t1", "t2", none, none, "scheduled", none, some 4, 7, none⟩
        ⟨some 2, none, some "played"⟩ 99).away_score = some 4 :=
  ⟨(update_match_frame
      ⟨"L1", "t1", "t2", none, none, "scheduled", none, none, 7, none⟩
      ⟨none, none, none⟩ 99).1 ⟨rfl, rfl, rfl⟩,
   (update_match_frame
      ⟨"L1", "t1", "t2", none, none, "scheduled", none, some 4, 7, none⟩
      ⟨some 2, none, some "played"⟩ 99).2.2.1 rfl⟩

end Football
